import Mathlib

/-!
# Verification of the trade-and-customs dashboard pipeline

Shallow embedding of the aggregation/filter/rank pipeline of
`src/app.py` (a pandas/streamlit dashboard).  Records are rows of the
loaded spreadsheet; categorical cells are `Option String` (`none` = NaN),
numeric cells are `Option Rat` (`none` = NaN), and the parsed receipt
date is `Option Nat` (the month period produced by
`pd.to_datetime(..., errors="coerce").dt.to_period("M")`; `none` =
missing or unparseable).
-/

/-- One row of the customs dataset, with the columns `src/app.py`
accesses: `HS Product`, `Country of Origin`, `Country of Supply`,
`Importer`, `CIF Value (N)`, `FOB Value (N)`, `Total Tax(N)` and the
optional date column. -/
structure Record where
  hsProduct : Option String
  countryOfOrigin : Option String
  countryOfSupply : Option String
  importer : Option String
  cifValue : Option Rat
  fobValue : Option Rat
  totalTax : Option Rat
  receiptDate : Option Nat
deriving DecidableEq, Repr

/-- The three sidebar multiselect filters of `src/app.py` (lines 41-56):
`hs_products`, `countries_origin`, `countries_supply`.  An empty list is
a deselected filter (falsy in the `if hs_products:` guards). -/
structure Filters where
  hsProducts : List String
  countriesOrigin : List String
  countriesSupply : List String
deriving DecidableEq, Repr

/-- `Series.isin` on one cell: a NaN cell (`none`) is never a member of
the accepted list (the lists come from `dropna().unique()`, so they
contain no NaN). -/
def isinOpt (v : Option String) (s : List String) : Bool :=
  match v with
  | some x => s.contains x
  | none => false

/-- The filter stage of `src/app.py` lines 61-67: start from a copy of
the dataframe and apply each boolean-mask filter only when its
multiselect list is non-empty. -/
def filtered_df (rs : List Record) (f : Filters) : List Record :=
  let r1 := if f.hsProducts.isEmpty then rs
            else rs.filter (fun r => isinOpt r.hsProduct f.hsProducts)
  let r2 := if f.countriesOrigin.isEmpty then r1
            else r1.filter (fun r => isinOpt r.countryOfOrigin f.countriesOrigin)
  let r3 := if f.countriesSupply.isEmpty then r2
            else r2.filter (fun r => isinOpt r.countryOfSupply f.countriesSupply)
  r3

/-- Modelled from the spec (§4.2): a record passes iff, for every column
with a non-empty filter, the record's value for that column is a member
of the accepted set; an empty filter imposes no restriction and a null
value never passes.  Compared against `filtered_df` below. -/
def specPass (f : Filters) (r : Record) : Bool :=
  (f.hsProducts.isEmpty || isinOpt r.hsProduct f.hsProducts) &&
  (f.countriesOrigin.isEmpty || isinOpt r.countryOfOrigin f.countriesOrigin) &&
  (f.countriesSupply.isEmpty || isinOpt r.countryOfSupply f.countriesSupply)

/-- Executable lexicographic comparison on character lists (the order
pandas uses for its sorted string group index). -/
def charsLt : List Char → List Char → Bool
  | [], [] => false
  | [], _ :: _ => true
  | _ :: _, [] => false
  | a :: as, b :: bs => if a < b then true else if b < a then false else charsLt as bs

/-- Executable lexicographic comparison on strings; proven below to
agree with the `<` of `String`. -/
def strLt (a b : String) : Bool := charsLt a.data b.data

/-- Executable `<` on month periods. -/
def natLtb (a b : Nat) : Bool := Nat.blt a b

/-- Ordered duplicate-free insertion of a group key, building the
ascending key index that `DataFrame.groupby` (with its default
`sort=True`) gives the result Series. -/
def keyInsert {α : Type} [DecidableEq α] (ltb : α → α → Bool) (k : α) :
    List α → List α
  | [] => [k]
  | y :: l =>
      if ltb k y then k :: y :: l
      else if k = y then y :: l
      else y :: keyInsert ltb k l

/-- The ascending, duplicate-free list of group keys of
`groupby(group_col)`: every non-NaN key of the frame, NaN keys dropped
(`groupby`'s default `dropna=True`). -/
def sortedKeys {α : Type} [DecidableEq α] (ltb : α → α → Bool)
    (gb : Record → Option α) (rs : List Record) : List α :=
  rs.foldr (fun r acc => match gb r with | some k => keyInsert ltb k acc | none => acc) []

/-- The summed measure of one group: `groupby(...)[measure].sum()` adds
each row whose key matches, skipping NaN measure cells (pandas `sum`
treats NaN as 0 with the default `min_count=0`). -/
def groupSum {α : Type} [DecidableEq α] (rs : List Record) (gb : Record → Option α)
    (ms : Record → Option Rat) (k : α) : Rat :=
  rs.foldl (fun acc r => if gb r = some k then acc + (ms r).getD 0 else acc) 0

/-- `filtered_df.groupby(group_col)[measure].sum()` from `src/app.py`
(e.g. lines 131-133): a Series keyed by the ascending distinct non-NaN
group keys, each carrying the group's summed measure. -/
def aggregate {α : Type} [DecidableEq α] (ltb : α → α → Bool) (rs : List Record)
    (gb : Record → Option α) (ms : Record → Option Rat) : List (α × Rat) :=
  (sortedKeys ltb gb rs).map (fun k => (k, groupSum rs gb ms k))

/-- One insertion step of an ascending-by-value comparison sort.
`Series.sort_values(ascending=False)` computes an ascending argsort with
numpy's default introsort and reverses the indexer; introsort is the
(stable) insertion sort only below 16 elements and is unstable above
that, so the relative order this model gives EQUAL values is a
modelling choice, exact for small inputs only.  Theorems below
therefore rely only on properties every comparison sort by value
shares (the value ordering, the length); the one concrete tie-order
evaluation is on a 2-element input, where introsort is this insertion
sort. -/
def valInsert {α : Type} (x : α × Rat) : List (α × Rat) → List (α × Rat)
  | [] => [x]
  | y :: l => if x.2 ≤ y.2 then x :: y :: l else y :: valInsert x l

/-- Insertion sort ascending by the summed value (see `valInsert` for
what is and is not faithful about the tie order). -/
def valSort {α : Type} : List (α × Rat) → List (α × Rat)
  | [] => []
  | x :: l => valInsert x (valSort l)

/-- `Series.sort_values(ascending=False)`: an ascending argsort by
value, reversed.  The program leaves the relative order of tied values
unspecified (numpy's default quicksort is unstable); this executable
model fixes one admissible order, and theorems quantifying over all
inputs use only tie-order-independent consequences. -/
def sort_values_desc {α : Type} (l : List (α × Rat)) : List (α × Rat) :=
  (valSort l).reverse

/-- The ranking step of `src/app.py` lines 131-137:
`...sort_values(ascending=False).head(top_n)`. -/
def rank {α : Type} (aggs : List (α × Rat)) (top_n : Nat) : List (α × Rat) :=
  (sort_values_desc aggs).take top_n

/-- `human_format` of `src/app.py` lines 72-78, modelled on the numeric
value it formats: the first branch divides by 1e9, the second by 1e6,
the last leaves the value unscaled.  The string component names the
scale band the branch applied (`"B"`, `"M"`, `""`); the Python function
returns only the formatted number, and its `"B"`/`"M"` meaning is
attached by the call sites. -/
def human_format (x : Rat) : Rat × String :=
  if 1000000000 ≤ x then (x / 1000000000, "B")
  else if 1000000 ≤ x then (x / 1000000, "M")
  else (x, "")

/-- Modelled from the spec (§4.5): `humanize` applies the magnitude
thresholds to the absolute value, preserving sign.  Compared against
`human_format` above. -/
def humanizeSpec (x : Rat) : Rat × String :=
  if 1000000000 ≤ |x| then (x / 1000000000, "B")
  else if 1000000 ≤ |x| then (x / 1000000, "M")
  else (x, "")

/-- `filtered_df["CIF Value (N)"].sum()` (line 92); pandas `sum` skips
NaN cells. -/
def total_imports (rs : List Record) : Rat :=
  (rs.map (fun r => r.cifValue.getD 0)).sum

/-- `filtered_df["FOB Value (N)"].sum()` (line 93). -/
def total_fob (rs : List Record) : Rat :=
  (rs.map (fun r => r.fobValue.getD 0)).sum

/-- `filtered_df["Total Tax(N)"].sum()` (line 94). -/
def total_tax (rs : List Record) : Rat :=
  (rs.map (fun r => r.totalTax.getD 0)).sum

/-- The metric card of line 99: `f"{human_format(total_imports)}B"` —
the number `human_format` produced with the literal suffix `"B"`
appended unconditionally. -/
def cifCard (rs : List Record) : Rat × String :=
  ((human_format (total_imports rs)).1, "B")

/-- The metric card of line 100: `f"{human_format(total_fob)}B"`. -/
def fobCard (rs : List Record) : Rat × String :=
  ((human_format (total_fob rs)).1, "B")

/-- The metric card of line 101: `f"{human_format(total_tax)}B"`. -/
def taxCard (rs : List Record) : Rat × String :=
  ((human_format (total_tax rs)).1, "B")

/-- The monthly trend of lines 207-217: drop rows whose date or metric
cell is NaN (`dropna(subset=[date_col, metric])`), then group by the
month period and sum the metric; `groupby` sorts the month keys
ascending, i.e. chronologically. -/
def monthly_volume (rs : List Record) (ms : Record → Option Rat) : List (Nat × Rat) :=
  aggregate natLtb (rs.filter (fun r => r.receiptDate.isSome && (ms r).isSome))
    (fun r => r.receiptDate) ms

/-- Python runtime errors the script-level models can surface. -/
inductive PyError where
  | nameError (v : String)
  | keyError (c : String)
deriving DecidableEq, Repr

/-- The variables the main `if df is not None:` block of `src/app.py`
assigns and the trailing Key Insights block reads. -/
structure MainView where
  imports_by_hs : List (String × Rat)
  supply_countries : List (String × Rat)
  origin_countries : List (String × Rat)
  tax_by_hs : List (String × Rat)
  top_importers : List (String × Rat)
  totals : Rat × Rat × Rat
deriving DecidableEq, Repr

/-- The Key Insights block of lines 252-270: for each non-empty ranked
table it reads the top row's key and its `Scaled` column (value / 1e9). -/
def insightsOf (v : MainView) : List (String × Rat) :=
  (match v.imports_by_hs with
   | [] => []
   | t :: _ => [(t.1, t.2 / 1000000000)]) ++
  (match v.origin_countries with
   | [] => []
   | t :: _ => [(t.1, t.2 / 1000000000)]) ++
  (match v.supply_countries with
   | [] => []
   | t :: _ => [(t.1, t.2 / 1000000000)])

/-- Top-level control flow of `src/app.py`:
`loaded` is the result of `load_data()` (`none` when it raised
`FileNotFoundError`, in which case `st.error` is shown and `df = None`);
`uploaded` replaces `df` when a file is uploaded.  The main block runs
only under `if df is not None:`; the Key Insights block at lines 252-258
sits outside that guard and unconditionally evaluates
`imports_by_hs.empty`, a `NameError` whenever the main block never ran.
Returns (whether the load error message was shown, the script result:
either the main view plus the insight lines, or the runtime error). -/
def script (loaded uploaded : Option (List Record)) (f : Filters)
    (ms : Record → Option Rat) (top_n : Nat) :
    Bool × Except PyError (MainView × List (String × Rat)) :=
  let errShown := loaded.isNone
  let df : Option (List Record) :=
    match uploaded with
    | some u => some u
    | none => loaded
  let env : Option MainView := df.map (fun rs =>
    let fd := filtered_df rs f
    { imports_by_hs := rank (aggregate strLt fd (fun r => r.hsProduct) ms) top_n
      supply_countries := rank (aggregate strLt fd (fun r => r.countryOfSupply) ms) top_n
      origin_countries := rank (aggregate strLt fd (fun r => r.countryOfOrigin) ms) top_n
      tax_by_hs := rank (aggregate strLt fd (fun r => r.hsProduct) (fun r => r.totalTax)) top_n
      top_importers := rank (aggregate strLt fd (fun r => r.importer) (fun r => r.cifValue)) top_n
      totals := (total_imports fd, total_fob fd, total_tax fd) })
  match env with
  | none => (errShown, Except.error (PyError.nameError "imports_by_hs"))
  | some v => (errShown, Except.ok (v, insightsOf v))

/-- The `df[...]` column accesses of `src/app.py` in program order
(sidebar options at lines 43/48/53, key metrics at lines 92-95); the
first one missing from the frame raises `KeyError` and aborts the
script. -/
def columnAccesses : List String :=
  ["HS Product", "Country of Origin", "Country of Supply",
   "CIF Value (N)", "FOB Value (N)", "Total Tax(N)", "Importer"]

/-- The candidate date column names of line 201. -/
def date_candidates : List String :=
  ["Receipt Date", "Receipt_Date", "Date", "date", "receipt_date"]

/-- The six always-rendered sections of the dashboard. -/
def mainViews : List String :=
  ["Imports by HS Product", "Countries of Supply", "Countries of Origin",
   "Tax Revenue by HS Product", "Top Importers", "Correlation Heatmap"]

/-- Column-access projection of the dashboard script: evaluate the
`df[...]` accesses in program order, raising `KeyError` for the first
missing column; otherwise every view renders, with the monthly trend
replaced by the `st.info` notice of line 205 when no candidate date
column exists.  Returns (rendered views, whether the no-date notice was
shown). -/
def runDash (schema : List String) : Except PyError (List String × Bool) :=
  match columnAccesses.find? (fun c => !schema.contains c) with
  | some c => Except.error (PyError.keyError c)
  | none =>
      match date_candidates.find? (fun c => schema.contains c) with
      | none => Except.ok (mainViews, true)
      | some _ => Except.ok (mainViews ++ ["Monthly Trade Volume"], false)

/-- Concrete record: origin "A", CIF 100 (Scenario C). -/
def recA : Record :=
  { hsProduct := none, countryOfOrigin := some "A", countryOfSupply := none,
    importer := none, cifValue := some 100, fobValue := none,
    totalTax := none, receiptDate := none }

/-- Concrete record: origin "B", CIF 100 (Scenario C). -/
def recB : Record :=
  { hsProduct := none, countryOfOrigin := some "B", countryOfSupply := none,
    importer := none, cifValue := some 100, fobValue := none,
    totalTax := none, receiptDate := none }

/-- Concrete record with every categorical cell present. -/
def rX : Record :=
  { hsProduct := some "Rice", countryOfOrigin := some "NG",
    countryOfSupply := some "GH", importer := some "Acme",
    cifValue := some 100, fobValue := some 90, totalTax := some 10,
    receiptDate := some 5 }

/-- Concrete record whose CIF value puts the total in the millions band. -/
def rM : Record :=
  { hsProduct := some "Rice", countryOfOrigin := some "NG",
    countryOfSupply := some "GH", importer := some "Acme",
    cifValue := some 5000000, fobValue := some 90, totalTax := some 10,
    receiptDate := none }

/-- Concrete record with a null country of origin but a present
importer (Scenario D). -/
def recNull : Record :=
  { hsProduct := none, countryOfOrigin := none, countryOfSupply := none,
    importer := some "Acme", cifValue := some 7, fobValue := none,
    totalTax := none, receiptDate := none }

/-- A schema that lacks `HS Product` but has every other accessed column
and a date column. -/
def schemaNoHS : List String :=
  ["Country of Origin", "Country of Supply", "CIF Value (N)",
   "FOB Value (N)", "Total Tax(N)", "Importer", "Receipt Date"]

-- ===================================================================
-- Theorems
-- ===================================================================

theorem charsLt_lex (a b : List Char) :
    charsLt a b = true ↔ List.Lex (· < ·) a b := by
  induction a generalizing b with
  | nil =>
    cases b with
    | nil => simp only [charsLt, Bool.false_eq_true, false_iff]; intro h; cases h
    | cons y bs => simp only [charsLt, true_iff]; exact List.Lex.nil
  | cons x as ih =>
    cases b with
    | nil =>
      simp only [charsLt, Bool.false_eq_true, false_iff]; intro h; cases h
    | cons y bs =>
      simp only [charsLt]
      split
      · rename_i h; simp only [true_iff]; exact List.Lex.rel h
      · split
        · rename_i h1 h2
          simp only [Bool.false_eq_true, false_iff]
          intro h
          cases h with
          | cons h' => exact absurd h2 (lt_irrefl _)
          | rel h' => exact absurd h' h1
        · rename_i h1 h2
          have hxy : x = y := le_antisymm (not_lt.mp h2) (not_lt.mp h1)
          rw [ih]
          subst hxy
          constructor
          · intro h; exact List.Lex.cons h
          · intro h
            cases h with
            | cons h' => exact h'
            | rel h' => exact absurd h' h1

theorem strLt_iff (a b : String) : strLt a b = true ↔ a < b := by
  rw [String.lt_iff_toList_lt]
  exact charsLt_lex a.toList b.toList

theorem natLtb_iff (a b : Nat) : natLtb a b = true ↔ a < b := by
  simp [natLtb, Nat.blt_eq]

theorem strLt_trans (a b c : String) (h1 : strLt a b = true) (h2 : strLt b c = true) :
    strLt a c = true := by
  rw [strLt_iff] at *
  exact lt_trans h1 h2

theorem strLt_total (a b : String) (h1 : ¬ strLt a b = true) (h2 : a ≠ b) :
    strLt b a = true := by
  rw [strLt_iff] at *
  exact (lt_or_gt_of_ne h2).resolve_left h1

theorem strLt_ne (a b : String) (h : strLt a b = true) : a ≠ b :=
  ne_of_lt ((strLt_iff a b).mp h)

theorem sortedKeys_cons {α : Type} [DecidableEq α] (ltb : α → α → Bool)
    (gb : Record → Option α) (r : Record) (rs : List Record) :
    sortedKeys ltb gb (r :: rs)
      = match gb r with
        | some k => keyInsert ltb k (sortedKeys ltb gb rs)
        | none => sortedKeys ltb gb rs := rfl

theorem mem_keyInsert {α : Type} [DecidableEq α] (ltb : α → α → Bool) (k a : α) :
    ∀ l : List α, a ∈ keyInsert ltb k l ↔ a = k ∨ a ∈ l
  | [] => by simp [keyInsert]
  | y :: l => by
    unfold keyInsert
    split
    · simp only [List.mem_cons]
      try tauto
    · split
      · rename_i hky
        subst hky
        simp only [List.mem_cons]
        try tauto
      · simp only [List.mem_cons, mem_keyInsert ltb k a l]
        try tauto

theorem keyInsert_pairwise {α : Type} [DecidableEq α] (ltb : α → α → Bool)
    (htrans : ∀ a b c, ltb a b = true → ltb b c = true → ltb a c = true)
    (htotal : ∀ a b, ¬ ltb a b = true → a ≠ b → ltb b a = true) (k : α) :
    ∀ l : List α, l.Pairwise (fun a b => ltb a b = true) →
      (keyInsert ltb k l).Pairwise (fun a b => ltb a b = true)
  | [], _ => by simp [keyInsert]
  | y :: l, hp => by
    rw [List.pairwise_cons] at hp
    obtain ⟨hy, hl⟩ := hp
    unfold keyInsert
    split
    · rename_i hky
      refine List.Pairwise.cons ?_ (List.Pairwise.cons hy hl)
      intro z hz
      rcases List.mem_cons.mp hz with rfl | hz
      · exact hky
      · exact htrans k y z hky (hy z hz)
    · split
      · exact List.Pairwise.cons hy hl
      · rename_i hky hne
        have hyk : ltb y k = true := htotal k y hky hne
        refine List.Pairwise.cons ?_ (keyInsert_pairwise ltb htrans htotal k l hl)
        intro z hz
        rcases (mem_keyInsert ltb k z l).mp hz with rfl | hz
        · exact hyk
        · exact hy z hz

theorem mem_sortedKeys {α : Type} [DecidableEq α] (ltb : α → α → Bool)
    (gb : Record → Option α) (a : α) :
    ∀ rs : List Record, a ∈ sortedKeys ltb gb rs ↔ ∃ r ∈ rs, gb r = some a
  | [] => by simp [sortedKeys]
  | r :: rs => by
    rw [sortedKeys_cons]
    cases hgb : gb r with
    | none =>
      simp only [mem_sortedKeys ltb gb a rs, List.mem_cons]
      constructor
      · rintro ⟨r', hr', h⟩; exact ⟨r', Or.inr hr', h⟩
      · rintro ⟨r', hr' | hr', h⟩
        · subst hr'; rw [hgb] at h; cases h
        · exact ⟨r', hr', h⟩
    | some k =>
      simp only [mem_keyInsert, mem_sortedKeys ltb gb a rs, List.mem_cons]
      constructor
      · rintro (rfl | ⟨r', hr', h⟩)
        · exact ⟨r, Or.inl rfl, hgb⟩
        · exact ⟨r', Or.inr hr', h⟩
      · rintro ⟨r', hr' | hr', h⟩
        · subst hr'; rw [hgb] at h; exact Or.inl (Option.some_injective _ h).symm
        · exact Or.inr ⟨r', hr', h⟩

theorem sortedKeys_pairwise {α : Type} [DecidableEq α] (ltb : α → α → Bool)
    (htrans : ∀ a b c, ltb a b = true → ltb b c = true → ltb a c = true)
    (htotal : ∀ a b, ¬ ltb a b = true → a ≠ b → ltb b a = true)
    (gb : Record → Option α) :
    ∀ rs : List Record, (sortedKeys ltb gb rs).Pairwise (fun a b => ltb a b = true)
  | [] => by simp [sortedKeys]
  | r :: rs => by
    rw [sortedKeys_cons]
    cases hgb : gb r with
    | none => exact sortedKeys_pairwise ltb htrans htotal gb rs
    | some k =>
      exact keyInsert_pairwise ltb htrans htotal k _
        (sortedKeys_pairwise ltb htrans htotal gb rs)

theorem groupSum_foldl_acc {α : Type} [DecidableEq α] (gb : Record → Option α)
    (ms : Record → Option Rat) (k : α) :
    ∀ (rs : List Record) (acc : Rat),
      rs.foldl (fun acc r => if gb r = some k then acc + (ms r).getD 0 else acc) acc
        = acc + ((rs.filter (fun r => decide (gb r = some k))).map
            (fun r => (ms r).getD 0)).sum
  | [], acc => by simp
  | r :: rs, acc => by
    by_cases h : gb r = some k
    · rw [List.foldl_cons, if_pos h, List.filter_cons_of_pos (by simpa using h),
        List.map_cons, List.sum_cons,
        groupSum_foldl_acc gb ms k rs (acc + (ms r).getD 0), add_assoc]
    · rw [List.foldl_cons, if_neg h, List.filter_cons_of_neg (by simpa using h),
        groupSum_foldl_acc gb ms k rs acc]

theorem groupSum_eq_sum {α : Type} [DecidableEq α] (rs : List Record)
    (gb : Record → Option α) (ms : Record → Option Rat) (k : α) :
    groupSum rs gb ms k
      = ((rs.filter (fun r => decide (gb r = some k))).map (fun r => (ms r).getD 0)).sum := by
  unfold groupSum
  rw [groupSum_foldl_acc gb ms k rs 0, zero_add]

theorem groupSum_cons_none {α : Type} [DecidableEq α] (r : Record) (rs : List Record)
    (gb : Record → Option α) (ms : Record → Option Rat) (h : gb r = none) (k : α) :
    groupSum (r :: rs) gb ms k = groupSum rs gb ms k := by
  unfold groupSum
  simp [List.foldl_cons, h]

theorem mem_aggregate {α : Type} [DecidableEq α] (ltb : α → α → Bool)
    (rs : List Record) (gb : Record → Option α) (ms : Record → Option Rat)
    (k : α) (v : Rat) :
    (k, v) ∈ aggregate ltb rs gb ms
      ↔ (∃ r ∈ rs, gb r = some k) ∧ v = groupSum rs gb ms k := by
  unfold aggregate
  rw [List.mem_map]
  constructor
  · rintro ⟨a, ha, h⟩
    obtain ⟨rfl, rfl⟩ : a = k ∧ groupSum rs gb ms a = v := by
      constructor <;> [exact congrArg Prod.fst h; exact congrArg Prod.snd h]
    exact ⟨(mem_sortedKeys ltb gb a rs).mp ha, rfl⟩
  · rintro ⟨hk, rfl⟩
    exact ⟨k, (mem_sortedKeys ltb gb k rs).mpr hk, rfl⟩

theorem aggregate_cons_none {α : Type} [DecidableEq α] (ltb : α → α → Bool)
    (r : Record) (rs : List Record) (gb : Record → Option α)
    (ms : Record → Option Rat) (h : gb r = none) :
    aggregate ltb (r :: rs) gb ms = aggregate ltb rs gb ms := by
  unfold aggregate
  rw [sortedKeys_cons, h]
  exact List.map_congr_left (fun k _ => by rw [groupSum_cons_none r rs gb ms h k])

theorem mem_valInsert {α : Type} (x a : α × Rat) :
    ∀ l : List (α × Rat), a ∈ valInsert x l ↔ a = x ∨ a ∈ l
  | [] => by simp [valInsert]
  | y :: l => by
    unfold valInsert
    split
    · simp only [List.mem_cons]
      try tauto
    · simp only [List.mem_cons, mem_valInsert x a l]
      try tauto

theorem mem_valSort {α : Type} (a : α × Rat) :
    ∀ l : List (α × Rat), a ∈ valSort l ↔ a ∈ l
  | [] => Iff.rfl
  | x :: l => by
    unfold valSort
    rw [mem_valInsert, mem_valSort a l, List.mem_cons]

theorem length_valInsert {α : Type} (x : α × Rat) :
    ∀ l : List (α × Rat), (valInsert x l).length = l.length + 1
  | [] => rfl
  | y :: l => by
    unfold valInsert
    split
    · rfl
    · simp only [List.length_cons, length_valInsert x l]

theorem length_valSort {α : Type} :
    ∀ l : List (α × Rat), (valSort l).length = l.length
  | [] => rfl
  | x :: l => by
    unfold valSort
    rw [length_valInsert, length_valSort l, List.length_cons]

theorem valInsert_sorted_le {α : Type} (x : α × Rat) :
    ∀ l : List (α × Rat), l.Pairwise (fun a b => a.2 ≤ b.2) →
      (valInsert x l).Pairwise (fun a b => a.2 ≤ b.2)
  | [], _ => by simp [valInsert]
  | y :: l, hp => by
    rw [List.pairwise_cons] at hp
    obtain ⟨hy, hl⟩ := hp
    unfold valInsert
    split
    · rename_i hxy
      refine List.Pairwise.cons ?_ (List.Pairwise.cons hy hl)
      intro z hz
      rcases List.mem_cons.mp hz with rfl | hz
      · exact hxy
      · exact le_trans hxy (hy z hz)
    · rename_i hxy
      push_neg at hxy
      refine List.Pairwise.cons ?_ (valInsert_sorted_le x l hl)
      intro z hz
      rcases (mem_valInsert x z l).mp hz with rfl | hz
      · exact le_of_lt hxy
      · exact hy z hz

theorem valSort_sorted_le {α : Type} :
    ∀ l : List (α × Rat), (valSort l).Pairwise (fun a b => a.2 ≤ b.2)
  | [] => by simp [valSort]
  | x :: l => by
    unfold valSort
    exact valInsert_sorted_le x (valSort l) (valSort_sorted_le l)

theorem rank_length {α : Type} (aggs : List (α × Rat)) (n : Nat) :
    (rank aggs n).length = min n aggs.length := by
  rw [rank, sort_values_desc, List.length_take, List.length_reverse, length_valSort]

theorem sortedKeys_length_strLt (gb : Record → Option String) (rs : List Record) :
    (sortedKeys strLt gb rs).length = ((rs.filterMap gb).dedup).length := by
  have h1 : (sortedKeys strLt gb rs).Nodup :=
    (sortedKeys_pairwise strLt strLt_trans strLt_total gb rs).imp
      (fun h => strLt_ne _ _ h)
  have h2 : ((rs.filterMap gb).dedup).Nodup := List.nodup_dedup _
  refine List.Perm.length_eq ((List.perm_ext_iff_of_nodup h1 h2).mpr ?_)
  intro a
  rw [List.mem_dedup, List.mem_filterMap, mem_sortedKeys]

theorem filtered_df_eq_filter (rs : List Record) (f : Filters) :
    filtered_df rs f = rs.filter (specPass f) := by
  unfold filtered_df specPass
  cases h1 : f.hsProducts.isEmpty <;>
    cases h2 : f.countriesOrigin.isEmpty <;>
      cases h3 : f.countriesSupply.isEmpty <;>
        simp [h1, h2, h3, List.filter_filter, Bool.and_comm, Bool.and_assoc,
          Bool.and_left_comm]

example : filtered_df [rX] ⟨["Rice"], [], []⟩ = [rX] := by decide
example : filtered_df [rX] ⟨["Maize"], [], []⟩ = [] := by decide
example : aggregate strLt [recB, recA] (fun r => r.countryOfOrigin) (fun r => r.cifValue)
    = [("A", 100), ("B", 100)] := by
  norm_num +decide [aggregate, sortedKeys, keyInsert, groupSum, recA, recB]
example : rank (aggregate strLt [recB, recA] (fun r => r.countryOfOrigin)
    (fun r => r.cifValue)) 2 = [("B", 100), ("A", 100)] := by
  norm_num +decide [aggregate, sortedKeys, keyInsert, groupSum, recA, recB,
    rank, sort_values_desc, valSort, valInsert]
example : human_format 2000000000 = (2, "B") := by norm_num [human_format]
example : script none none ⟨[], [], []⟩ (fun r => r.cifValue) 10
    = (true, Except.error (PyError.nameError "imports_by_hs")) := by
  norm_num [script]
example : runDash schemaNoHS = Except.error (PyError.keyError "HS Product") := by rfl
example : monthly_volume [rX] (fun r => r.cifValue) = [(5, 100)] := by
  norm_num +decide [monthly_volume, aggregate, sortedKeys, keyInsert, groupSum, rX]

theorem human_format_band (x : Rat) :
    (1000000000 ≤ x → human_format x = (x / 1000000000, "B"))
    ∧ (1000000 ≤ x ∧ x < 1000000000 → human_format x = (x / 1000000, "M"))
    ∧ (x < 1000000 → human_format x = (x, ""))
    ∧ ((human_format x).2 = "B" ↔ 1000000000 ≤ x) := by
  unfold human_format
  by_cases h1 : 1000000000 ≤ x
  · rw [if_pos h1]
    refine ⟨fun _ => rfl, fun h => absurd h1 (not_le.mpr h.2),
      fun h => absurd h1 (not_le.mpr (by linarith)), ?_⟩
    simp only [h1, iff_true]
  · rw [if_neg h1]
    by_cases h2 : 1000000 ≤ x
    · rw [if_pos h2]
      refine ⟨fun h => absurd h h1, fun _ => rfl, fun h => absurd h2 (not_le.mpr h), ?_⟩
      have hne : ("M" : String) ≠ "B" := by decide
      constructor
      · intro h; exact absurd h hne
      · intro h; exact absurd h h1
    · rw [if_neg h2]
      refine ⟨fun h => absurd h h1, fun h => absurd h.1 h2, fun _ => rfl, ?_⟩
      have hne : ("" : String) ≠ "B" := by decide
      constructor
      · intro h; exact absurd h hne
      · intro h; exact absurd h h1

/-- Claim C1, counterexample: two origin groups tie at value 100 with
keys "B" and "A" (input order B then A); the code's
`sort_values(ascending=False).head(2)` returns them as
[("B", 100), ("A", 100)], not in ascending lexicographic key order
[("A", 100), ("B", 100)] as claimed. -/
theorem rank_tie_ascending_counterexample :
    rank (aggregate strLt [recB, recA] (fun r => r.countryOfOrigin)
        (fun r => r.cifValue)) 2
      = [("B", 100), ("A", 100)]
    ∧ [(("B" : String), (100 : Rat)), ("A", 100)] ≠ [("A", 100), ("B", 100)] := by
  constructor
  · norm_num +decide [aggregate, sortedKeys, keyInsert, groupSum, recA, recB,
      rank, sort_values_desc, valSort, valInsert]
  · decide

/-- Claim C1, amended: for every aggregate mapping and every top_n,
`rank` returns the groups sorted (weakly) descending by summed value;
the relative order of equal-valued groups is left unspecified by the
program (numpy's default sort is unstable), and in the Scenario C
instance the observed output is [("B", 100), ("A", 100)], not the
ascending-key order the original claim promised (see the
counterexample). -/
theorem rank_sorted_desc (rs : List Record) (gb : Record → Option String)
    (ms : Record → Option Rat) (n : Nat) :
    (rank (aggregate strLt rs gb ms) n).Pairwise (fun a b => b.2 ≤ a.2) := by
  unfold rank sort_values_desc
  refine List.Pairwise.sublist (List.take_sublist n _) ?_
  rw [List.pairwise_reverse]
  exact valSort_sorted_le _

/-- Claim C2: aggregation sums the chosen measure per non-null group
key: a key appears iff some record carries it (null keys never form a
group), its value is the sum of the measure over exactly the records
with that key with null measures contributing 0, prepending a
null-key record changes nothing, and — Scenario D — a record with a
null `country_of_origin` drops out of the origin aggregation but its
importer group still appears when `importer` is present.  Keys are
compared by exact (case-sensitive, untrimmed) string equality by
construction of the model. -/
theorem aggregate_spec (rs : List Record) (gb : Record → Option String)
    (ms : Record → Option Rat) :
    (∀ k v, (k, v) ∈ aggregate strLt rs gb ms → ∃ r ∈ rs, gb r = some k)
    ∧ (∀ k, (∃ r ∈ rs, gb r = some k) →
        (k, ((rs.filter (fun r => decide (gb r = some k))).map
          (fun r => (ms r).getD 0)).sum) ∈ aggregate strLt rs gb ms)
    ∧ (∀ r, gb r = none → aggregate strLt (r :: rs) gb ms = aggregate strLt rs gb ms)
    ∧ (∀ r i, r.countryOfOrigin = none → r.importer = some i →
        aggregate strLt (r :: rs) (fun x => x.countryOfOrigin) ms
          = aggregate strLt rs (fun x => x.countryOfOrigin) ms
        ∧ ∃ v, (i, v) ∈ aggregate strLt (r :: rs) (fun x => x.importer) ms) := by
  refine ⟨?_, ?_, ?_, ?_⟩
  · intro k v h
    exact ((mem_aggregate strLt rs gb ms k v).mp h).1
  · intro k hk
    exact (mem_aggregate strLt rs gb ms k _).mpr ⟨hk, (groupSum_eq_sum rs gb ms k).symm⟩
  · intro r h
    exact aggregate_cons_none strLt r rs gb ms h
  · intro r i ho hi
    refine ⟨aggregate_cons_none strLt r rs _ ms ho, ?_⟩
    exact ⟨groupSum (r :: rs) (fun x => x.importer) ms i,
      (mem_aggregate strLt (r :: rs) _ ms i _).mpr ⟨⟨r, by simp, hi⟩, rfl⟩⟩

/-- Witness for C2: the Scenario D conjunct applied to the concrete
record `recNull` (null origin, importer "Acme") prepended to `[recA]`. -/
theorem aggregate_spec_witness :
    aggregate strLt (recNull :: [recA]) (fun x => x.countryOfOrigin)
        (fun r => r.cifValue)
      = aggregate strLt [recA] (fun x => x.countryOfOrigin) (fun r => r.cifValue)
    ∧ ∃ v, (("Acme" : String), v) ∈ aggregate strLt (recNull :: [recA])
        (fun x => x.importer) (fun r => r.cifValue) :=
  (aggregate_spec [recA] (fun x => x.countryOfOrigin) (fun r => r.cifValue)).2.2.2
    recNull "Acme" rfl rfl

/-- Claim C3: a record survives `filtered_df` iff for every column with
a non-empty filter its value is a member of the accepted set (the
filter equals one pass of the spec predicate); empty filters impose no
restriction, survivors keep their original relative order
(`Sublist`), and a record with a null value in a filtered column never
survives. -/
theorem filtered_df_spec (rs : List Record) (f : Filters) :
    filtered_df rs f = rs.filter (specPass f)
    ∧ (∀ r, r ∈ filtered_df rs f ↔ r ∈ rs ∧ specPass f r = true)
    ∧ (filtered_df rs f).Sublist rs
    ∧ (∀ r, r ∈ filtered_df rs f → ¬f.hsProducts.isEmpty = true →
        r.hsProduct ≠ none) := by
  refine ⟨filtered_df_eq_filter rs f, ?_, ?_, ?_⟩
  · intro r
    rw [filtered_df_eq_filter]
    exact List.mem_filter
  · rw [filtered_df_eq_filter]
    exact List.filter_sublist rs
  · intro r hr hne hnull
    rw [filtered_df_eq_filter, List.mem_filter] at hr
    have hp := hr.2
    unfold specPass at hp
    rw [Bool.and_assoc, Bool.and_eq_true, Bool.or_eq_true] at hp
    rcases hp.1 with h | h
    · exact hne h
    · rw [hnull] at h
      cases h

/-- Witness for C3: with the filter `hs_products = ["Rice"]`, the
surviving record `rX` necessarily has a non-null HS Product. -/
theorem filtered_df_spec_witness : rX.hsProduct ≠ none :=
  (filtered_df_spec [rX] ⟨["Rice"], [], []⟩).2.2.2 rX (by decide) (by decide)

/-- Claim C4: for positive n, `rank` returns exactly
min(n, number of distinct non-null group keys) rows, and ranking an
empty aggregate yields the empty sequence rather than a failure. -/
theorem rank_length_spec (rs : List Record) (gb : Record → Option String)
    (ms : Record → Option Rat) (n : Nat) (hn : 0 < n) :
    (rank (aggregate strLt rs gb ms) n).length
      = min n ((rs.filterMap gb).dedup).length
    ∧ rank ([] : List (String × Rat)) n = [] := by
  constructor
  · rw [rank_length, aggregate, List.length_map, sortedKeys_length_strLt]
  · rw [rank, sort_values_desc]
    show (List.reverse (valSort [])).take n = []
    rw [show valSort ([] : List (String × Rat)) = [] from rfl]
    rw [List.reverse_nil, List.take_nil]

/-- Witness for C4: two distinct origin groups, top_n = 5, gives
min 5 2 = 2 rows. -/
theorem rank_length_spec_witness :
    (rank (aggregate strLt [recB, recA] (fun r => r.countryOfOrigin)
        (fun r => r.cifValue)) 5).length
      = min 5 (([recB, recA].filterMap (fun r => r.countryOfOrigin)).dedup).length :=
  (rank_length_spec [recB, recA] (fun r => r.countryOfOrigin)
    (fun r => r.cifValue) 5 (by norm_num)).1

/-- Claim C5, counterexample: `human_format` compares the signed value
directly, so −2·10⁹ falls through to the unscaled branch and is
returned as (−2000000000, ""), not the claimed (−2, "B") that the
spec-modelled `humanizeSpec` (thresholds on the absolute value,
sign preserved) produces. -/
theorem human_format_negative_counterexample :
    human_format (-2000000000) = (-2000000000, "")
    ∧ human_format (-2000000000) ≠ (-2, "B")
    ∧ humanizeSpec (-2000000000) = (-2, "B") := by
  have h1 : human_format (-2000000000) = (-2000000000, "") := by
    unfold human_format
    rw [if_neg (by norm_num), if_neg (by norm_num)]
  have h2 : humanizeSpec (-2000000000) = (-2, "B") := by
    unfold humanizeSpec
    rw [if_pos (by rw [abs_of_nonpos (by norm_num)]; norm_num)]
    rw [show (-2000000000 : Rat) / 1000000000 = -2 by norm_num]
  refine ⟨h1, ?_, h2⟩
  rw [h1]
  intro h
  exact absurd (congrArg Prod.snd h) (by decide)

/-- Claim C5, amended: `human_format` scales by 1e9 when the (signed)
value is at least 1e9, by 1e6 when it lies in [1e6, 1e9), and leaves
every other value — including 0 and every negative value — unscaled
with an empty unit; it is a total function, so it never raises. -/
theorem human_format_spec_amended (x : Rat) :
    (1000000000 ≤ x → human_format x = (x / 1000000000, "B"))
    ∧ (1000000 ≤ x ∧ x < 1000000000 → human_format x = (x / 1000000, "M"))
    ∧ (x < 1000000 → human_format x = (x, "")) :=
  ⟨(human_format_band x).1, (human_format_band x).2.1, (human_format_band x).2.2.1⟩

/-- Witness for C5: 2·10⁹ is in the billions band. -/
theorem human_format_spec_amended_witness :
    (1000000000 : Rat) ≤ 2000000000
    ∧ human_format 2000000000 = (2000000000 / 1000000000, "B") :=
  ⟨by norm_num, (human_format_spec_amended 2000000000).1 (by norm_num)⟩

/-- Claim C6: when the source file is missing (`load_data` raises
`FileNotFoundError`, no upload), the script shows the load error and
skips the main block, but the Key Insights block then raises an
uncaught `NameError` on `imports_by_hs` — the code evaluates to a
runtime error after the load failure is reported, for every filter,
metric and top-n selection. -/
theorem script_load_failure_nameerror (f : Filters) (ms : Record → Option Rat)
    (n : Nat) :
    script none none f ms n
      = (true, Except.error (PyError.nameError "imports_by_hs")) := rfl

/-- Claim C7, counterexample: a table with every accessed column except
`HS Product` (and with a date column present) aborts the whole
dashboard with a `KeyError` at the first sidebar access — no view
renders, contradicting "a missing column never causes a fatal abort". -/
theorem missing_hs_product_fatal :
    runDash schemaNoHS = Except.error (PyError.keyError "HS Product")
    ∧ "Receipt Date" ∈ schemaNoHS ∧ "Country of Origin" ∈ schemaNoHS :=
  ⟨rfl, by decide, by decide⟩

/-- Claim C7, amended: only the date column is optional — when every
accessed column is present, a missing date column merely replaces the
monthly-trend view with an inline notice while the six other views
render, and a present date column renders all seven; but a missing
required column (e.g. `HS Product`) aborts the entire dashboard with a
`KeyError`. -/
theorem runDash_degradation_amended (schema : List String) :
    ((∀ c ∈ columnAccesses, schema.contains c = true) →
      date_candidates.find? (fun c => schema.contains c) = none →
      runDash schema = Except.ok (mainViews, true))
    ∧ ((∀ c ∈ columnAccesses, schema.contains c = true) →
      ∀ d, date_candidates.find? (fun c => schema.contains c) = some d →
      runDash schema = Except.ok (mainViews ++ ["Monthly Trade Volume"], false))
    ∧ (schema.contains "HS Product" = false →
      runDash schema = Except.error (PyError.keyError "HS Product")) := by
  have hfind : (∀ c ∈ columnAccesses, schema.contains c = true) →
      columnAccesses.find? (fun c => !schema.contains c) = none := by
    intro h
    rw [List.find?_eq_none]
    intro c hc
    rw [h c hc]
    decide
  refine ⟨?_, ?_, ?_⟩
  · intro h hd
    simp only [runDash, hfind h, hd]
  · intro h d hd
    simp only [runDash, hfind h, hd]
  · intro h
    have hHS : columnAccesses.find? (fun c => !schema.contains c)
        = some "HS Product" := by
      rw [columnAccesses]
      exact List.find?_cons_of_pos _ (by rw [h]; rfl)
    simp only [runDash, hHS]

/-- Witness for C7: a schema holding exactly the accessed columns and
no date column renders the six main views with the trend notice. -/
theorem runDash_degradation_amended_witness :
    runDash columnAccesses = Except.ok (mainViews, true) :=
  (runDash_degradation_amended columnAccesses).1 (by decide) (by decide)

/-- Claim C8: when the filters match zero records the pipeline
completes with defined values: every per-group aggregate is empty, the
monthly trend is empty, and the three summary totals are 0 — the empty
state is a value, not an exception. -/
theorem empty_filter_pipeline (rs : List Record) (f : Filters)
    (gb : Record → Option String) (ms ms2 : Record → Option Rat)
    (h : filtered_df rs f = []) :
    aggregate strLt (filtered_df rs f) gb ms = []
    ∧ monthly_volume (filtered_df rs f) ms2 = []
    ∧ total_imports (filtered_df rs f) = 0
    ∧ total_fob (filtered_df rs f) = 0
    ∧ total_tax (filtered_df rs f) = 0 := by
  rw [h]
  exact ⟨rfl, rfl, rfl, rfl, rfl⟩

/-- Witness for C8: the filter `hs_products = ["Maize"]` matches no
record of `[rX]`, and the HS aggregate of the empty view is empty. -/
theorem empty_filter_pipeline_witness :
    aggregate strLt (filtered_df [rX] ⟨["Maize"], [], []⟩) (fun r => r.hsProduct)
        (fun r => r.cifValue) = ([] : List (String × Rat)) :=
  (empty_filter_pipeline [rX] ⟨["Maize"], [], []⟩ (fun r => r.hsProduct)
    (fun r => r.cifValue) (fun r => r.cifValue) (by decide)).1

/-- Claim C9: the filter stage is idempotent — applying the same
filters to an already-filtered view returns it unchanged. -/
theorem filtered_df_idempotent (rs : List Record) (f : Filters) :
    filtered_df (filtered_df rs f) f = filtered_df rs f := by
  rw [filtered_df_eq_filter rs f, filtered_df_eq_filter (rs.filter (specPass f)) f,
    List.filter_filter]
  exact List.filter_congr (fun a _ => by rw [Bool.and_self])

/-- Claim C10: the three key-metric cards append the literal suffix "B"
regardless of magnitude: a total in [1e6, 1e9) is displayed divided by
1e6 yet labeled "B", a total below 1e6 is displayed unscaled yet
labeled "B", and the displayed unit agrees with the scale
`human_format` actually applied exactly when the total is ≥ 1e9. -/
theorem metric_cards_always_B (rs : List Record) :
    (cifCard rs).2 = "B" ∧ (fobCard rs).2 = "B" ∧ (taxCard rs).2 = "B"
    ∧ (1000000 ≤ total_imports rs ∧ total_imports rs < 1000000000 →
        (cifCard rs).1 = total_imports rs / 1000000)
    ∧ (total_imports rs < 1000000 → (cifCard rs).1 = total_imports rs)
    ∧ (1000000000 ≤ total_imports rs →
        (cifCard rs).1 = total_imports rs / 1000000000)
    ∧ ((human_format (total_imports rs)).2 = (cifCard rs).2
        ↔ 1000000000 ≤ total_imports rs) := by
  have hb := human_format_band (total_imports rs)
  refine ⟨rfl, rfl, rfl, ?_, ?_, ?_, ?_⟩
  · intro h
    rw [cifCard, hb.2.1 h]
  · intro h
    rw [cifCard, hb.2.2.1 h]
  · intro h
    rw [cifCard, hb.1 h]
  · exact hb.2.2.2

/-- Witness for C10: a single record with CIF 5·10⁶ gives a total in
the millions band, displayed as total / 1e6 with suffix "B". -/
theorem metric_cards_always_B_witness :
    (1000000 : Rat) ≤ total_imports [rM] ∧ total_imports [rM] < 1000000000
    ∧ (cifCard [rM]).1 = total_imports [rM] / 1000000
    ∧ (cifCard [rM]).2 = "B" := by
  have h1 : (1000000 : Rat) ≤ total_imports [rM] := by norm_num [total_imports, rM]
  have h2 : total_imports [rM] < 1000000000 := by norm_num [total_imports, rM]
  exact ⟨h1, h2, (metric_cards_always_B [rM]).2.2.2.1 ⟨h1, h2⟩,
    (metric_cards_always_B [rM]).1⟩
